import Mathlib

/-!
Verification development for the `command_executor_rust` core of the
agent-lifecycle repository: a shallow embedding in Lean 4 of the
asynchronous command executor in `src/command_executor_rust/src/lib.rs`,
with theorems about its parsing, spawning, I/O-lane join, timeout race,
and error-mapping behaviour.
-/

namespace AgentLifecycle

/-- Model of `std::io::Error` as it is observed by this crate: an opaque
payload carrying the OS error text. -/
structure IoErr where
  msg : String
deriving DecidableEq

/-- Model of `tokio::task::JoinError`: an opaque payload describing why a
spawned task could not be joined. -/
structure JoinErr where
  msg : String
deriving DecidableEq

/-- Model of `std::process::ExitStatus`: a child either exited normally
with a code or was terminated by a signal. -/
inductive ExitStatus where
  | exited (c : Int)
  | signaled (sig : Nat)
deriving DecidableEq

/-- Model of `ExitStatus::code()`: `Some(code)` for a normal exit, `None`
when the process was terminated by a signal. -/
def ExitStatus.code : ExitStatus → Option Int
  | .exited c => some c
  | .signaled _ => none

/-- The error enumeration `CommandExecutorError` from lib.rs lines 9-44,
constructor for constructor. -/
inductive CommandExecutorError where
  | parseError (raw : String)
  | spawnError (command : String) (source : IoErr)
  | timeoutError (command : String) (duration_secs : Nat)
  | ioError (source : IoErr)
  | joinError (source : JoinErr)
  | stdinWriteError (msg : String)
  | emptyCommandError
deriving DecidableEq

/-- The caller-visible Python exception classes used by the
`From<CommandExecutorError> for PyErr` impl (lib.rs lines 46-66). -/
inductive PyErrKind where
  | valueError
  | osError
  | timeoutError
  | ioError
  | runtimeError
deriving DecidableEq

/-- The boundary mapping `From<CommandExecutorError> for PyErr`
(lib.rs lines 46-66): each internal error variant is translated into one
Python exception class. -/
def pyErrFrom : CommandExecutorError → PyErrKind
  | .parseError _ => .valueError
  | .emptyCommandError => .valueError
  | .spawnError _ _ => .osError
  | .timeoutError _ _ => .timeoutError
  | .ioError _ => .ioError
  | .stdinWriteError _ => .ioError
  | .joinError _ => .runtimeError

/-- The success type `CommandOutput` (lib.rs lines 69-78). -/
structure CommandOutput where
  stdout : String
  stderr : String
  exit_code : Option Int
deriving DecidableEq

/-- U+FFFD, the replacement character used by lossy UTF-8 decoding. -/
def replacementChar : Char := Char.ofNat 0xFFFD

/-- Whether a byte is a UTF-8 continuation byte (0x80..0xBF). -/
def isCont (b : Nat) : Bool := 0x80 ≤ b && b ≤ 0xBF

/-- Byte-level model of `String::from_utf8_lossy` (lib.rs lines 133-134):
decode well-formed UTF-8 sequences to their scalar values and replace each
maximal invalid subpart with U+FFFD.  Every step consumes at least one
byte, so fuel equal to the byte count makes the function total; the fuel
argument only makes the recursion structural. -/
def utf8LossyGo : Nat → List Nat → List Char
  | _, [] => []
  | 0, _ :: _ => []
  | fuel + 1, b :: rest =>
    if b ≤ 0x7F then
      Char.ofNat b :: utf8LossyGo fuel rest
    else if 0xC2 ≤ b && b ≤ 0xDF then
      match rest with
      | b2 :: rest2 =>
        if isCont b2 then
          Char.ofNat ((b - 0xC0) * 64 + (b2 - 0x80)) :: utf8LossyGo fuel rest2
        else
          replacementChar :: utf8LossyGo fuel (b2 :: rest2)
      | [] => [replacementChar]
    else if 0xE0 ≤ b && b ≤ 0xEF then
      match rest with
      | b2 :: rest2 =>
        if (b == 0xE0 && (0xA0 ≤ b2 && b2 ≤ 0xBF)) ||
           ((0xE1 ≤ b && b ≤ 0xEC) && isCont b2) ||
           (b == 0xED && (0x80 ≤ b2 && b2 ≤ 0x9F)) ||
           (0xEE ≤ b && isCont b2) then
          match rest2 with
          | b3 :: rest3 =>
            if isCont b3 then
              Char.ofNat ((b - 0xE0) * 4096 + (b2 - 0x80) * 64 + (b3 - 0x80)) ::
                utf8LossyGo fuel rest3
            else
              replacementChar :: utf8LossyGo fuel (b3 :: rest3)
          | [] => [replacementChar]
        else
          replacementChar :: utf8LossyGo fuel (b2 :: rest2)
      | [] => [replacementChar]
    else if 0xF0 ≤ b && b ≤ 0xF4 then
      match rest with
      | b2 :: rest2 =>
        if (b == 0xF0 && (0x90 ≤ b2 && b2 ≤ 0xBF)) ||
           ((0xF1 ≤ b && b ≤ 0xF3) && isCont b2) ||
           (b == 0xF4 && (0x80 ≤ b2 && b2 ≤ 0x8F)) then
          match rest2 with
          | b3 :: rest3 =>
            if isCont b3 then
              match rest3 with
              | b4 :: rest4 =>
                if isCont b4 then
                  Char.ofNat ((b - 0xF0) * 262144 + (b2 - 0x80) * 4096 +
                    (b3 - 0x80) * 64 + (b4 - 0x80)) :: utf8LossyGo fuel rest4
                else
                  replacementChar :: utf8LossyGo fuel (b4 :: rest4)
              | [] => [replacementChar]
            else
              replacementChar :: utf8LossyGo fuel (b3 :: rest3)
          | [] => [replacementChar]
        else
          replacementChar :: utf8LossyGo fuel (b2 :: rest2)
      | [] => [replacementChar]
    else
      replacementChar :: utf8LossyGo fuel rest

/-- `String::from_utf8_lossy(bytes).into_owned()` on a captured byte buffer. -/
def fromUtf8Lossy (bs : List Nat) : String := String.mk (utf8LossyGo bs.length bs)

/-- The resolved outcomes of the four I/O lanes of
`run_and_capture_output` (lib.rs lines 90-123).  The stdin task's closure
can only construct `StdinWriteError`, so its payload is modelled as the
message string; each `tokio::spawn`ed task may also fail to join. -/
structure LaneResults where
  stdinRes : Except JoinErr (Except String Unit)
  stdoutRes : Except JoinErr (Except IoErr (List Nat))
  stderrRes : Except JoinErr (Except IoErr (List Nat))
  statusRes : Except IoErr ExitStatus

/-- The join/aggregation stage of `run_and_capture_output`
(lib.rs lines 118-141): after `tokio::join!` has resolved all four lanes,
propagate errors in source order (stdin `??`, stdout `??`, stderr `??`,
status `?`), then lossily decode the buffers and read the exit code. -/
def run_and_capture_output (stdinRes : Except JoinErr (Except String Unit))
    (stdoutRes stderrRes : Except JoinErr (Except IoErr (List Nat)))
    (statusRes : Except IoErr ExitStatus) :
    Except CommandExecutorError CommandOutput :=
  match stdinRes with
  | .error j => .error (.joinError j)
  | .ok (.error m) => .error (.stdinWriteError m)
  | .ok (.ok _) =>
    match stdoutRes with
    | .error j => .error (.joinError j)
    | .ok (.error e) => .error (.ioError e)
    | .ok (.ok outBuf) =>
      match stderrRes with
      | .error j => .error (.joinError j)
      | .ok (.error e) => .error (.ioError e)
      | .ok (.ok errBuf) =>
        match statusRes with
        | .error e => .error (.ioError e)
        | .ok status =>
          .ok { stdout := fromUtf8Lossy outBuf
                stderr := fromUtf8Lossy errBuf
                exit_code := status.code }

/-- Discrete-time model of the four concurrently running lanes: the number
of cooperative scheduler rounds each lane still needs before it resolves. -/
structure LaneTimes where
  stdinT : Nat
  stdoutT : Nat
  stderrT : Nat
  waitT : Nat
deriving DecidableEq

/-- One scheduler round: every still-pending lane is polled and makes one
step of progress (the event-driven runtime polls all four branches of
`tokio::join!`, so none is starved). -/
def LaneTimes.step (s : LaneTimes) : LaneTimes :=
  ⟨s.stdinT - 1, s.stdoutT - 1, s.stderrT - 1, s.waitT - 1⟩

/-- Run the cooperative scheduler for `t` rounds. -/
def LaneTimes.run : Nat → LaneTimes → LaneTimes
  | 0, s => s
  | Nat.succ t, s => LaneTimes.run t s.step

/-- Whether every lane has resolved. -/
def LaneTimes.allDone (s : LaneTimes) : Bool :=
  s.stdinT == 0 && s.stdoutT == 0 && s.stderrT == 0 && s.waitT == 0

/-- The round at which the `tokio::join!` of the four lanes resolves: the
last lane to finish. -/
def LaneTimes.joinTime (s : LaneTimes) : Nat :=
  max (max s.stdinT s.stdoutT) (max s.stderrT s.waitT)

/-- What the orchestrator has produced after `t` scheduler rounds: `none`
while any lane is still pending, and the joined result of
`run_and_capture_output` once all four lanes have resolved. -/
def orchOutputAt (times : LaneTimes) (res : LaneResults) (t : Nat) :
    Option (Except CommandExecutorError CommandOutput) :=
  if (LaneTimes.run t times).allDone then
    some (run_and_capture_output res.stdinRes res.stdoutRes res.stderrRes res.statusRes)
  else none

/-- Lexer states for POSIX-style word splitting. -/
inductive LexState where
  | normal
  | inSingle
  | inDouble
  | escaped
  | escapedInDouble
deriving DecidableEq

/-- Word-splitting whitespace. -/
def isSpaceChar (c : Char) : Bool :=
  c == ' ' || c == '\t' || c == '\n' || c == '\r'

/-- Append the current in-progress word, if any, to the token list. -/
def flushWord (cur : Option String) (acc : List String) : List String :=
  match cur with
  | none => acc
  | some w => acc ++ [w]

/-- Modelled from the spec: the repository calls `shlex::split`, a
third-party crate whose source is not part of this repository.  Following
spec section 4.1, this lexer applies POSIX shell word-splitting with
single quotes, double quotes and backslash escapes (no globbing or
expansion) and fails - returns `none` - when quoting is unterminated or a
trailing backslash leaves an escape unfinished. -/
def splitLoop : List Char → LexState → Option String → List String → Option (List String)
  | [], .normal, cur, acc => some (flushWord cur acc)
  | [], _, _, _ => none
  | c :: rest, .normal, cur, acc =>
    if isSpaceChar c then
      splitLoop rest .normal none (flushWord cur acc)
    else if c == '\'' then
      splitLoop rest .inSingle (some (cur.getD "")) acc
    else if c == '"' then
      splitLoop rest .inDouble (some (cur.getD "")) acc
    else if c == '\\' then
      splitLoop rest .escaped (some (cur.getD "")) acc
    else
      splitLoop rest .normal (some ((cur.getD "").push c)) acc
  | c :: rest, .inSingle, cur, acc =>
    if c == '\'' then
      splitLoop rest .normal cur acc
    else
      splitLoop rest .inSingle (some ((cur.getD "").push c)) acc
  | c :: rest, .inDouble, cur, acc =>
    if c == '"' then
      splitLoop rest .normal cur acc
    else if c == '\\' then
      splitLoop rest .escapedInDouble cur acc
    else
      splitLoop rest .inDouble (some ((cur.getD "").push c)) acc
  | c :: rest, .escaped, cur, acc =>
    splitLoop rest .normal (some ((cur.getD "").push c)) acc
  | c :: rest, .escapedInDouble, cur, acc =>
    splitLoop rest .inDouble (some ((cur.getD "").push c)) acc

/-- Modelled from the spec: `shlex::split` on the raw command line -
`none` on malformed quoting, otherwise the token list (possibly empty). -/
def shlex_split (s : String) : Option (List String) :=
  splitLoop s.data .normal none []

/-- The environment a single execution runs against: the outcome the OS
gives to `cmd_builder.spawn()`, and the resolution times and outcomes of
the four I/O lanes of the spawned child. -/
structure ExecEnv where
  spawnResult : Except IoErr Unit
  times : LaneTimes
  lanes : LaneResults

/-- What one call of the executor did: the value returned across the
boundary, and whether the OS spawn call was ever reached. -/
structure ExecOutcome where
  result : Except CommandExecutorError CommandOutput
  spawnAttempted : Bool

/-- Shallow embedding of `execute_command_rust_async`
(lib.rs lines 145-215): parse the command line (`ParseError` on `None`),
reject an empty token list (`EmptyCommandError`), spawn
(`SpawnError{command: parts[0], source}` on failure), then either race the
orchestrator against the timer with `tokio::select! { biased; ... }` -
the timer branch is polled first, so the timer wins whenever
`secs ≤ joinTime` - or, with no timeout, run the orchestrator to
completion. -/
def execute_command_rust_async (command_str : String) (timeout_seconds : Option Nat)
    (env : ExecEnv) : ExecOutcome :=
  match shlex_split command_str with
  | none => ⟨.error (.parseError command_str), false⟩
  | some parts =>
    match parts with
    | [] => ⟨.error .emptyCommandError, false⟩
    | p :: _args =>
      match env.spawnResult with
      | .error e => ⟨.error (.spawnError p e), true⟩
      | .ok _ =>
        let orch := run_and_capture_output env.lanes.stdinRes env.lanes.stdoutRes
          env.lanes.stderrRes env.lanes.statusRes
        match timeout_seconds with
        | some secs =>
          if secs ≤ env.times.joinTime then
            ⟨.error (.timeoutError command_str secs), true⟩
          else
            ⟨orch, true⟩
        | none => ⟨orch, true⟩

/-- Concrete lane outcomes of a child that writes nothing and exits 0,
used to instantiate theorems at closed inputs. -/
def lanesOk : LaneResults :=
  ⟨.ok (.ok ()), .ok (.ok []), .ok (.ok []), .ok (.exited 0)⟩

/-- An environment in which the spawn succeeds and all lanes resolve
immediately. -/
def envOk : ExecEnv := ⟨.ok (), ⟨0, 0, 0, 0⟩, lanesOk⟩

/-- The OS error the spawn call reports for a missing binary. -/
def osErr : IoErr := ⟨"No such file or directory (os error 2)"⟩

/-- An environment in which the OS spawn call fails. -/
def envSpawnFail : ExecEnv := ⟨.error osErr, ⟨0, 0, 0, 0⟩, lanesOk⟩

/-! Helper lemmas -/

/-- Running the cooperative scheduler for `t` rounds decrements every
lane's remaining count by `t` (truncated at zero). -/
theorem LaneTimes.run_eq (t : Nat) (s : LaneTimes) :
    LaneTimes.run t s =
      ⟨s.stdinT - t, s.stdoutT - t, s.stderrT - t, s.waitT - t⟩ := by
  induction t generalizing s with
  | zero => cases s; simp [LaneTimes.run]
  | succ t ih =>
    show LaneTimes.run t s.step = _
    rw [ih]
    simp only [LaneTimes.step, LaneTimes.mk.injEq]
    omega

/-- The orchestrator's join has produced a value at round `t` exactly when
every one of the four lanes has resolved by round `t`. -/
theorem orchOutputAt_isSome_iff (times : LaneTimes) (res : LaneResults) (t : Nat) :
    (orchOutputAt times res t).isSome ↔
      (times.stdinT ≤ t ∧ times.stdoutT ≤ t ∧ times.stderrT ≤ t ∧ times.waitT ≤ t) := by
  rw [orchOutputAt, LaneTimes.run_eq]
  split
  next h =>
    simp only [Option.isSome_some, true_iff]
    simp only [LaneTimes.allDone, Bool.and_eq_true, beq_iff_eq] at h
    omega
  next h =>
    simp only [Option.isSome_none, Bool.false_eq_true, false_iff]
    simp only [LaneTimes.allDone, Bool.and_eq_true, beq_iff_eq] at h
    omega

/-- Whatever value the joined orchestrator returns, it is never the
`TimeoutError` variant: only the timeout race constructs it. -/
theorem run_and_capture_output_ne_timeout
    (a : Except JoinErr (Except String Unit))
    (b c : Except JoinErr (Except IoErr (List Nat)))
    (d : Except IoErr ExitStatus) (s : String) (t : Nat) :
    run_and_capture_output a b c d ≠ .error (.timeoutError s t) := by
  rcases a with j | m_u
  · simp [run_and_capture_output]
  rcases m_u with m | u
  · simp [run_and_capture_output]
  rcases b with j | e_ob
  · simp [run_and_capture_output]
  rcases e_ob with e | ob
  · simp [run_and_capture_output]
  rcases c with j | e_eb
  · simp [run_and_capture_output]
  rcases e_eb with e | eb
  · simp [run_and_capture_output]
  rcases d with e | st
  · simp [run_and_capture_output]
  · simp [run_and_capture_output]

/-- Each scheduler round strictly decreases the remaining count of every
still-pending lane: no lane is starved by the others. -/
theorem laneProgress (times : LaneTimes) (t : Nat) :
    (0 < (LaneTimes.run t times).stdinT →
      (LaneTimes.run (t + 1) times).stdinT < (LaneTimes.run t times).stdinT) ∧
    (0 < (LaneTimes.run t times).stdoutT →
      (LaneTimes.run (t + 1) times).stdoutT < (LaneTimes.run t times).stdoutT) ∧
    (0 < (LaneTimes.run t times).stderrT →
      (LaneTimes.run (t + 1) times).stderrT < (LaneTimes.run t times).stderrT) ∧
    (0 < (LaneTimes.run t times).waitT →
      (LaneTimes.run (t + 1) times).waitT < (LaneTimes.run t times).waitT) := by
  rw [LaneTimes.run_eq, LaneTimes.run_eq]
  dsimp only
  omega

/-! Claim theorems -/

/-- C1: the orchestrator runs four logically-concurrent lanes against the
spawned process and produces no result or error until every one of the
four lanes has resolved; in each scheduler round every pending lane makes
progress, so no lane can indefinitely starve another. -/
theorem C1_join_all_lanes (times : LaneTimes) (res : LaneResults) (t : Nat) :
    ((orchOutputAt times res t).isSome ↔
      (times.stdinT ≤ t ∧ times.stdoutT ≤ t ∧ times.stderrT ≤ t ∧ times.waitT ≤ t)) ∧
    (0 < (LaneTimes.run t times).stdinT →
      (LaneTimes.run (t + 1) times).stdinT < (LaneTimes.run t times).stdinT) ∧
    (0 < (LaneTimes.run t times).stdoutT →
      (LaneTimes.run (t + 1) times).stdoutT < (LaneTimes.run t times).stdoutT) ∧
    (0 < (LaneTimes.run t times).stderrT →
      (LaneTimes.run (t + 1) times).stderrT < (LaneTimes.run t times).stderrT) ∧
    (0 < (LaneTimes.run t times).waitT →
      (LaneTimes.run (t + 1) times).waitT < (LaneTimes.run t times).waitT) :=
  ⟨orchOutputAt_isSome_iff times res t, laneProgress times t⟩

/-- C1 witness: with lane resolution times 1, 2, 3, 4 the join has a value
at round 4, and a lane with remaining work progresses in one round. -/
theorem C1_join_all_lanes_witness :
    (orchOutputAt ⟨1, 2, 3, 4⟩ lanesOk 4).isSome ∧
    (LaneTimes.run (0 + 1) ⟨2, 2, 2, 2⟩).stdinT <
      (LaneTimes.run 0 ⟨2, 2, 2, 2⟩).stdinT :=
  ⟨(C1_join_all_lanes ⟨1, 2, 3, 4⟩ lanesOk 4).1.mpr (by decide),
   (C1_join_all_lanes ⟨2, 2, 2, 2⟩ lanesOk 0).2.1 (by decide)⟩

/-- C2: with `timeout_seconds = Some n` the executor races the
orchestrator against an `n`-second timer checked at priority - the result
is `TimeoutError` carrying the original command line and `n` exactly when
the timer is ready no later than the orchestrator's join (ties included) -
and with `timeout_seconds = None` a `TimeoutError` is never produced. -/
theorem C2_timeout_race (cmd : String) (env : ExecEnv) (n : Nat) :
    (∀ p args, shlex_split cmd = some (p :: args) → env.spawnResult = .ok () →
      ((execute_command_rust_async cmd (some n) env).result =
          .error (.timeoutError cmd n) ↔ n ≤ env.times.joinTime)) ∧
    (∀ c d, (execute_command_rust_async cmd none env).result ≠
      .error (.timeoutError c d)) := by
  constructor
  · intro p args hp hs
    simp only [execute_command_rust_async, hp, hs]
    split
    next h => simp [h]
    next h =>
      exact iff_of_false (run_and_capture_output_ne_timeout _ _ _ _ _ _) h
  · intro c d
    rcases hparse : shlex_split cmd with _ | parts
    · simp [execute_command_rust_async, hparse]
    rcases parts with _ | ⟨p, args⟩
    · simp [execute_command_rust_async, hparse]
    rcases hspawn : env.spawnResult with e | u
    · simp [execute_command_rust_async, hparse, hspawn]
    · simp only [execute_command_rust_async, hparse, hspawn]
      exact run_and_capture_output_ne_timeout _ _ _ _ _ _

/-- C2 witness: `"echo hi"` with a zero-second timeout against an
immediately-resolving orchestrator times out at the tie. -/
theorem C2_timeout_race_witness :
    (execute_command_rust_async "echo hi" (some 0) envOk).result =
      .error (.timeoutError "echo hi" 0) :=
  ((C2_timeout_race "echo hi" envOk 0).1 "echo" ["hi"] (by decide) rfl).mpr
    (Nat.zero_le _)

/-- C3: the join policy collects every lane's outcome before deciding, and
when several lanes fail it reports a single failure by fixed priority: a
stdin-write failure is reported in preference to any stdout/stderr read
failure. -/
theorem C3_stdin_priority :
    (∀ (m : String) (stdoutRes stderrRes : Except JoinErr (Except IoErr (List Nat)))
      (statusRes : Except IoErr ExitStatus),
      run_and_capture_output (.ok (.error m)) stdoutRes stderrRes statusRes =
        .error (.stdinWriteError m)) ∧
    (∀ times res t, (orchOutputAt times res t).isSome →
      times.stdinT ≤ t ∧ times.stdoutT ≤ t ∧ times.stderrT ≤ t ∧ times.waitT ≤ t) :=
  ⟨fun _ _ _ _ => rfl,
   fun times res t h => (orchOutputAt_isSome_iff times res t).mp h⟩

/-- C3 witness: a failed stdin write together with failed stdout and
stderr reads reports the stdin-write failure. -/
theorem C3_stdin_priority_witness :
    run_and_capture_output (.ok (.error "broken pipe"))
        (.ok (.error ⟨"read failed"⟩)) (.ok (.error ⟨"read failed"⟩))
        (.ok (.exited 1)) = .error (.stdinWriteError "broken pipe") ∧
    ((1 : Nat) ≤ 4 ∧ (2 : Nat) ≤ 4 ∧ (3 : Nat) ≤ 4 ∧ (4 : Nat) ≤ 4) :=
  ⟨C3_stdin_priority.1 "broken pipe" _ _ _,
   C3_stdin_priority.2 ⟨1, 2, 3, 4⟩ lanesOk 4 (by decide)⟩

/-- C4: the boundary mapping from internal error variants to Python
exception classes is total and deterministic - `ParseError` and
`EmptyCommandError` to `ValueError`, `SpawnError` to `OSError`,
`TimeoutError` to `TimeoutError`, `StdinWriteError` and `IoError` to
`IOError`, `JoinError` to `RuntimeError` - and a call always yields either
a fully-populated output or exactly one error. -/
theorem C4_error_mapping :
    (∀ s, pyErrFrom (.parseError s) = .valueError) ∧
    (pyErrFrom .emptyCommandError = .valueError) ∧
    (∀ c e, pyErrFrom (.spawnError c e) = .osError) ∧
    (∀ c d, pyErrFrom (.timeoutError c d) = .timeoutError) ∧
    (∀ e, pyErrFrom (.ioError e) = .ioError) ∧
    (∀ m, pyErrFrom (.stdinWriteError m) = .ioError) ∧
    (∀ j, pyErrFrom (.joinError j) = .runtimeError) ∧
    (∀ cmd t env, (∃ o, (execute_command_rust_async cmd t env).result = .ok o) ∨
      (∃ e, (execute_command_rust_async cmd t env).result = .error e)) := by
  refine ⟨fun _ => rfl, rfl, fun _ _ => rfl, fun _ _ => rfl, fun _ => rfl,
    fun _ => rfl, fun _ => rfl, fun cmd t env => ?_⟩
  rcases h : (execute_command_rust_async cmd t env).result with e | o
  · exact Or.inr ⟨e, rfl⟩
  · exact Or.inl ⟨o, rfl⟩

/-- C5: a command line that tokenizes to zero words fails with
`EmptyCommandError` - a variant distinct from `ParseError` and from any
successful run - and the spawn call is never reached. -/
theorem C5_empty_command (cmd : String) (t : Option Nat) (env : ExecEnv)
    (h : shlex_split cmd = some []) :
    (execute_command_rust_async cmd t env).result = .error .emptyCommandError ∧
    (execute_command_rust_async cmd t env).spawnAttempted = false ∧
    (∀ s, (CommandExecutorError.emptyCommandError : CommandExecutorError) ≠
      .parseError s) ∧
    (∀ o, (execute_command_rust_async cmd t env).result ≠ .ok o) := by
  refine ⟨?_, ?_, fun s => by simp, ?_⟩
  · simp [execute_command_rust_async, h]
  · simp [execute_command_rust_async, h]
  · intro o
    simp [execute_command_rust_async, h]

/-- C5 witness: an all-whitespace command line fails with
`EmptyCommandError` without spawning. -/
theorem C5_empty_command_witness :
    (execute_command_rust_async "   " none envOk).result =
        .error .emptyCommandError ∧
      (execute_command_rust_async "   " none envOk).spawnAttempted = false :=
  ⟨(C5_empty_command "   " none envOk (by decide)).1,
   (C5_empty_command "   " none envOk (by decide)).2.1⟩

/-- C6: a command line with malformed quoting fails with `ParseError`
retaining the raw input string, and the spawn call is never reached. -/
theorem C6_parse_failure (cmd : String) (t : Option Nat) (env : ExecEnv)
    (h : shlex_split cmd = none) :
    (execute_command_rust_async cmd t env).result = .error (.parseError cmd) ∧
    (execute_command_rust_async cmd t env).spawnAttempted = false := by
  constructor
  · simp [execute_command_rust_async, h]
  · simp [execute_command_rust_async, h]

/-- C6 witness: the unterminated quote `"echo 'a"` yields `ParseError`
carrying that raw string, without spawning. -/
theorem C6_parse_failure_witness :
    (execute_command_rust_async "echo 'a" none envOk).result =
        .error (.parseError "echo 'a") ∧
      (execute_command_rust_async "echo 'a" none envOk).spawnAttempted = false :=
  ⟨(C6_parse_failure "echo 'a" none envOk (by decide)).1,
   (C6_parse_failure "echo 'a" none envOk (by decide)).2⟩

/-- C7: when the OS spawn call fails, the executor returns `SpawnError`
carrying the program name (the first parsed token) and the underlying OS
error, for any timeout setting. -/
theorem C7_spawn_failure (cmd : String) (t : Option Nat) (env : ExecEnv)
    (p : String) (args : List String) (e : IoErr)
    (hp : shlex_split cmd = some (p :: args)) (he : env.spawnResult = .error e) :
    (execute_command_rust_async cmd t env).result = .error (.spawnError p e) ∧
    (execute_command_rust_async cmd t env).spawnAttempted = true := by
  constructor
  · simp [execute_command_rust_async, hp, he]
  · simp [execute_command_rust_async, hp, he]

/-- C7 witness: spawning a nonexistent program reports `SpawnError` with
that program's name and the OS error. -/
theorem C7_spawn_failure_witness :
    (execute_command_rust_async "nosuchprogram" none envSpawnFail).result =
      .error (.spawnError "nosuchprogram" osErr) :=
  (C7_spawn_failure "nosuchprogram" none envSpawnFail "nosuchprogram" [] osErr
    (by decide) rfl).1

/-- C8: in every successful output the exit code is absent exactly when
the child was terminated by a signal, and a command with no timeout whose
child exits normally with code 0 yields `exit_code = 0`. -/
theorem C8_exit_code_signal (outBuf errBuf : List Nat) (st : ExitStatus) :
    (run_and_capture_output (.ok (.ok ())) (.ok (.ok outBuf)) (.ok (.ok errBuf))
        (.ok st) =
      .ok ⟨fromUtf8Lossy outBuf, fromUtf8Lossy errBuf, st.code⟩) ∧
    (st.code = none ↔ ∃ sig, st = .signaled sig) ∧
    (∀ cmd env p args, shlex_split cmd = some (p :: args) →
      env.spawnResult = .ok () →
      env.lanes = ⟨.ok (.ok ()), .ok (.ok outBuf), .ok (.ok errBuf),
        .ok (.exited 0)⟩ →
      (execute_command_rust_async cmd none env).result =
        .ok ⟨fromUtf8Lossy outBuf, fromUtf8Lossy errBuf, some 0⟩) := by
  refine ⟨rfl, ?_, ?_⟩
  · cases st with
    | exited c => simp [ExitStatus.code]
    | signaled s => simp [ExitStatus.code]
  · intro cmd env p args hp hs hl
    simp [execute_command_rust_async, hp, hs, hl, run_and_capture_output,
      ExitStatus.code]

/-- C8 witness: a child exiting normally with code 0 and empty output
yields a success with `exit_code = 0`, and `exited 0` has a present exit
code. -/
theorem C8_exit_code_signal_witness :
    (execute_command_rust_async "true" none envOk).result =
        .ok ⟨fromUtf8Lossy [], fromUtf8Lossy [], some 0⟩ ∧
      ¬(ExitStatus.exited 0).code = none :=
  ⟨(C8_exit_code_signal [] [] (.exited 0)).2.2 "true" envOk "true" []
      (by decide) rfl rfl,
   fun h => by simpa using (C8_exit_code_signal [] [] (.exited 0)).2.1.mp h⟩

/-- C9: stdout and stderr byte buffers - including ones holding invalid
UTF-8 - are decoded lossily into the success result, invalid sequences
becoming U+FFFD, and the decoding step never makes the operation fail. -/
theorem C9_lossy_decode (outBuf errBuf : List Nat) (st : ExitStatus) :
    (run_and_capture_output (.ok (.ok ())) (.ok (.ok outBuf)) (.ok (.ok errBuf))
        (.ok st) =
      .ok ⟨fromUtf8Lossy outBuf, fromUtf8Lossy errBuf, st.code⟩) ∧
    fromUtf8Lossy [0xFF] = String.mk [replacementChar] ∧
    fromUtf8Lossy [0x61, 0xFF, 0x62] =
      String.mk [Char.ofNat 0x61, replacementChar, Char.ofNat 0x62] ∧
    fromUtf8Lossy [0xE2, 0x82, 0xAC] = String.mk [Char.ofNat 0x20AC] :=
  ⟨rfl, by decide, by decide, by decide⟩

/-- C10: with `timeout_seconds = Some 0`, any request that parses to at
least one word and spawns successfully always returns `TimeoutError` with
duration 0 and never a success, because the already-expired timer is
polled with priority. -/
theorem C10_zero_timeout (cmd : String) (env : ExecEnv) (p : String)
    (args : List String)
    (hp : shlex_split cmd = some (p :: args)) (hs : env.spawnResult = .ok ()) :
    (execute_command_rust_async cmd (some 0) env).result =
      .error (.timeoutError cmd 0) ∧
    (∀ o, (execute_command_rust_async cmd (some 0) env).result ≠ .ok o) := by
  have hz : 0 ≤ env.times.joinTime := Nat.zero_le _
  constructor
  · simp [execute_command_rust_async, hp, hs, hz]
  · intro o
    simp [execute_command_rust_async, hp, hs, hz]

/-- C10 witness: an instantly-resolving child still times out under a
zero-second timeout. -/
theorem C10_zero_timeout_witness :
    (execute_command_rust_async "echo hi" (some 0) envOk).result =
      .error (.timeoutError "echo hi" 0) :=
  (C10_zero_timeout "echo hi" envOk "echo" ["hi"] (by decide) rfl).1

end AgentLifecycle
